import Mathlib

/-!
# Verification of a minimal OAuth 2.0 + PKCE authorization server

Shallow embedding of `main.go` of the repository (a single-file Go OAuth2
demo server).  Go strings are byte sequences, modelled as `List Nat` with
every element `< 256`; Go `map[string]T` is modelled as an association
list with unique keys (insert overwrites, delete removes, lookup is the
first match); `time.Time` is modelled as a `Nat` count of seconds, so the
Go durations `10 * time.Minute` and `1 * time.Hour` become `600` and
`3600`.  `time.Now()` is passed in explicitly as a parameter `now`;
`uuid.New().String()` is passed in as an explicit fresh-value parameter.
The handlers become pure functions from (request, fresh randomness, now,
store state) to (result, store state); the `sync.Mutex` in the source
serializes every critical section, so interleaved executions of the
handlers are modelled as sequential compositions in an arbitrary order.
-/

set_option autoImplicit false

namespace OAuth

/-- A Go string: a sequence of bytes.  (`string` in Go is an immutable
byte slice; `[]byte(s)` is exactly this list.) -/
abbrev GoStr := List Nat

/-- Byte list of an ASCII Lean string literal; used to transcribe the
string literals of `main.go` (all of which are ASCII, where the Go
UTF-8 bytes coincide with the code points). -/
def ascii (s : String) : GoStr := s.data.map Char.toNat

/-! ## SHA-256 (embedding of Go `crypto/sha256.Sum256`)

Word-by-word transcription of FIPS 180-4 as implemented by
`crypto/sha256`: 32-bit words are `Nat`s kept below `2^32` by explicit
`% 2^32` reductions. -/

/-- `2^32`, the modulus of 32-bit word arithmetic. -/
def w32 : Nat := 4294967296

/-- Right rotation of a 32-bit word (value assumed `< 2^32`). -/
def rotr (n x : Nat) : Nat := ((x >>> n) ||| (x <<< (32 - n))) % w32

/-- The 64 SHA-256 round constants (decimal). -/
def shaK : List Nat :=
  [1116352408, 1899447441, 3049323471, 3921009573, 961987163,
   1508970993, 2453635748, 2870763221, 3624381080, 310598401,
   607225278, 1426881987, 1925078388, 2162078206, 2614888103,
   3248222580, 3835390401, 4022224774, 264347078, 604807628,
   770255983, 1249150122, 1555081692, 1996064986, 2554220882,
   2821834349, 2952996808, 3210313671, 3336571891, 3584528711,
   113926993, 338241895, 666307205, 773529912, 1294757372,
   1396182291, 1695183700, 1986661051, 2177026350, 2456956037,
   2730485921, 2820302411, 3259730800, 3345764771, 3516065817,
   3600352804, 4094571909, 275423344, 430227734, 506948616,
   659060556, 883997877, 958139571, 1322822218, 1537002063,
   1747873779, 1955562222, 2024104815, 2227730452, 2361852424,
   2428436474, 2756734187, 3204031479, 3329325298]

/-- The eight 32-bit working variables of the compression function. -/
structure Words8 where
  a : Nat
  b : Nat
  c : Nat
  d : Nat
  e : Nat
  f : Nat
  g : Nat
  h : Nat
deriving Repr, DecidableEq

/-- The SHA-256 initial hash value (decimal). -/
def shaH0 : Words8 :=
  ⟨1779033703, 3144134277, 1013904242, 2773480762,
   1359893119, 2600822924, 528734635, 1541459225⟩

/-- Big-endian 8-byte encoding of a length (in bits), for the padding
trailer. -/
def beBytes8 (n : Nat) : List Nat :=
  [(n >>> 56) % 256, (n >>> 48) % 256, (n >>> 40) % 256, (n >>> 32) % 256,
   (n >>> 24) % 256, (n >>> 16) % 256, (n >>> 8) % 256, n % 256]

/-- SHA-256 padding: append `0x80`, zero bytes to 56 mod 64, then the
bit length as 8 big-endian bytes. -/
def padMessage (msg : List Nat) : List Nat :=
  let len := msg.length
  let zeros := (64 - (len + 9) % 64) % 64
  msg ++ [128] ++ List.replicate zeros 0 ++ beBytes8 (len * 8)

/-- Group bytes into big-endian 32-bit words. -/
def bytesToWords : List Nat → List Nat
  | b0 :: b1 :: b2 :: b3 :: rest =>
      (((b0 * 256 + b1) * 256 + b2) * 256 + b3) :: bytesToWords rest
  | _ => []

/-- Extend the 16-word message schedule by `n` further words; `rws` is
the schedule so far, most recent word first. -/
def extSched : Nat → List Nat → List Nat
  | 0, rws => rws
  | n + 1, rws =>
      let wm15 := rws.getD 14 0
      let wm2 := rws.getD 1 0
      let s0 := (rotr 7 wm15) ^^^ (rotr 18 wm15) ^^^ (wm15 >>> 3)
      let s1 := (rotr 17 wm2) ^^^ (rotr 19 wm2) ^^^ (wm2 >>> 10)
      extSched n (((rws.getD 15 0 + s0 + rws.getD 6 0 + s1) % w32) :: rws)

/-- The full 64-word message schedule of one 512-bit chunk. -/
def schedule (ws16 : List Nat) : List Nat := (extSched 48 ws16.reverse).reverse

/-- One round of the SHA-256 compression function. -/
def shaRound (s : Words8) (ki : Nat) (wi : Nat) : Words8 :=
  let bigS1 := (rotr 6 s.e) ^^^ (rotr 11 s.e) ^^^ (rotr 25 s.e)
  let ch := (s.e &&& s.f) ^^^ ((s.e ^^^ 4294967295) &&& s.g)
  let temp1 := (s.h + bigS1 + ch + ki + wi) % w32
  let bigS0 := (rotr 2 s.a) ^^^ (rotr 13 s.a) ^^^ (rotr 22 s.a)
  let maj := (s.a &&& s.b) ^^^ (s.a &&& s.c) ^^^ (s.b &&& s.c)
  let temp2 := (bigS0 + maj) % w32
  ⟨(temp1 + temp2) % w32, s.a, s.b, s.c, (s.d + temp1) % w32, s.e, s.f, s.g⟩

/-- Process one 64-byte chunk, updating the running hash value. -/
def processChunk (hv : Words8) (chunk : List Nat) : Words8 :=
  let ws := schedule (bytesToWords chunk)
  let s := (shaK.zip ws).foldl (fun st p => shaRound st p.1 p.2) hv
  ⟨(hv.a + s.a) % w32, (hv.b + s.b) % w32, (hv.c + s.c) % w32, (hv.d + s.d) % w32,
   (hv.e + s.e) % w32, (hv.f + s.f) % w32, (hv.g + s.g) % w32, (hv.h + s.h) % w32⟩

/-- Split a padded message (whose length is a multiple of 64) into
64-byte chunks. -/
def chunksGo : Nat → List Nat → List (List Nat)
  | 0, _ => []
  | n + 1, bs => bs.take 64 :: chunksGo n (bs.drop 64)

/-- All 64-byte chunks of a padded message. -/
def chunks (bs : List Nat) : List (List Nat) := chunksGo (bs.length / 64) bs

/-- Big-endian byte decomposition of a 32-bit word. -/
def wordBytes (w : Nat) : List Nat :=
  [(w >>> 24) % 256, (w >>> 16) % 256, (w >>> 8) % 256, w % 256]

/-- SHA-256 digest (32 bytes) of a byte sequence: the embedding of Go
`sha256.Sum256`. -/
def sha256 (msg : List Nat) : List Nat :=
  let final := (chunks (padMessage msg)).foldl processChunk shaH0
  wordBytes final.a ++ wordBytes final.b ++ wordBytes final.c ++ wordBytes final.d ++
  wordBytes final.e ++ wordBytes final.f ++ wordBytes final.g ++ wordBytes final.h

/-! ## URL-safe base64 without padding (Go `base64.RawURLEncoding`) -/

/-- The URL-safe base64 alphabet (RFC 4648 §5), as bytes. -/
def b64Alphabet : GoStr :=
  ascii "ABCDEFGHIJKLMNOPQRSTUVWXYZabcdefghijklmnopqrstuvwxyz0123456789-_"

/-- The alphabet byte of a 6-bit value. -/
def b64At (i : Nat) : Nat := b64Alphabet.getD i 0

/-- URL-safe base64 encoding without padding: the embedding of Go
`base64.RawURLEncoding.EncodeToString`. -/
def base64urlNoPad : List Nat → List Nat
  | [] => []
  | [b0] => [b64At (b0 >>> 2), b64At ((b0 % 4) <<< 4)]
  | [b0, b1] =>
      [b64At (b0 >>> 2), b64At (((b0 % 4) <<< 4) ||| (b1 >>> 4)), b64At ((b1 % 16) <<< 2)]
  | b0 :: b1 :: b2 :: rest =>
      b64At (b0 >>> 2) :: b64At (((b0 % 4) <<< 4) ||| (b1 >>> 4)) ::
      b64At (((b1 % 16) <<< 2) ||| (b2 >>> 6)) :: b64At (b2 % 64) :: base64urlNoPad rest

/-! ## PKCE verifier (embedding of `verifyPKCE`, main.go lines 242-251) -/

/-- `verifyPKCE(challenge, verifier)`: SHA-256 hash the verifier bytes,
base64url-encode the digest without padding, compare with the
challenge. -/
def verifyPKCE (challenge : GoStr) (verifier : GoStr) : Bool :=
  let hash := sha256 verifier
  let encoded := base64urlNoPad hash
  encoded == challenge

/-! ## Data model and stores (main.go lines 21-46) -/

/-- The single registered client identifier (`ClientID` constant). -/
def ClientID : GoStr := ascii "demo-client"

/-- The single registered redirect URI (`RedirectURI` constant). -/
def RedirectURI : GoStr := ascii "http://localhost:8080/cb"

/-- `AuthCode`: an issued authorization code and its bound metadata. -/
structure AuthCode where
  code : GoStr
  clientID : GoStr
  redirectURI : GoStr
  codeChallenge : GoStr
  codeChallengeMethod : GoStr
  expiresAt : Nat
deriving Repr, DecidableEq

/-- `AccessToken`: an issued bearer token. -/
structure AccessToken where
  token : GoStr
  clientID : GoStr
  expiresAt : Nat
deriving Repr, DecidableEq

/-- A Go `map[string]V`, as an association list with unique keys. -/
abbrev GoMap (V : Type) := List (GoStr × V)

/-- Map lookup (`m[k]`): first entry with the given key. -/
def mapGet {V : Type} (m : GoMap V) (k : GoStr) : Option V :=
  match m with
  | [] => none
  | (k0, v0) :: rest => if k0 = k then some v0 else mapGet rest k

/-- Map deletion (`delete(m, k)`): remove every entry with the key. -/
def mapDel {V : Type} : GoMap V → GoStr → GoMap V
  | [], _ => []
  | (k0, v0) :: rest, k =>
      if k0 = k then mapDel rest k else (k0, v0) :: mapDel rest k

/-- Map insertion (`m[k] = v`): overwrite any entry with the key. -/
def mapSet {V : Type} (m : GoMap V) (k : GoStr) (v : V) : GoMap V :=
  (k, v) :: mapDel m k

/-- The `codeStore` map. -/
abbrev CodeStore := GoMap AuthCode

/-- The `tokenStore` map. -/
abbrev TokenStore := GoMap AccessToken

/-! ## Authorization endpoint (embedding of `handleAuthorize`,
main.go lines 66-114) -/

/-- The query parameters read by `handleAuthorize`.  A parameter absent
from the URL is the empty string, exactly as Go's `query.Get`. -/
structure AuthRequest where
  client_id : GoStr
  redirect_uri : GoStr
  response_type : GoStr
  code_challenge : GoStr
  code_challenge_method : GoStr
  state : GoStr
deriving Repr, DecidableEq

/-- The observable outcome of `handleAuthorize`. -/
inductive AuthResult where
  | httpError (msg : GoStr) (status : Nat)
  | redirect (location : GoStr)
deriving Repr, DecidableEq

/-- `handleAuthorize`: validate the request, then mint a fresh code
(`uuid.New().String()`, passed as `freshCode`), store it with a
10-minute expiry, and redirect to `RedirectURI?code=<code>&state=<state>`. -/
def handleAuthorize (q : AuthRequest) (freshCode : GoStr) (now : Nat)
    (cs : CodeStore) : AuthResult × CodeStore :=
  if q.client_id ≠ ClientID then
    (.httpError (ascii "Invalid client_id") 400, cs)
  else if q.redirect_uri ≠ RedirectURI then
    (.httpError (ascii "Invalid redirect_uri") 400, cs)
  else if q.response_type ≠ ascii "code" then
    (.httpError (ascii "Unsupported response_type") 400, cs)
  else if q.code_challenge = [] ∨ q.code_challenge_method ≠ ascii "S256" then
    (.httpError (ascii "PKCE required (code_challenge + S256)") 400, cs)
  else
    let entry : AuthCode :=
      ⟨freshCode, ClientID, RedirectURI, q.code_challenge, q.code_challenge_method, now + 600⟩
    let location :=
      RedirectURI ++ ascii "?code=" ++ freshCode ++ ascii "&state=" ++ q.state
    (.redirect location, mapSet cs freshCode entry)

/-! ## Token endpoint (embedding of `handleToken`, main.go lines 118-182) -/

/-- The parts of the HTTP request read by `handleToken`: the method and
the form values (a form value absent from the body is the empty
string, exactly as Go's `r.FormValue`). -/
structure TokenRequest where
  method : GoStr
  grant_type : GoStr
  code : GoStr
  code_verifier : GoStr
  client_id : GoStr
deriving Repr, DecidableEq

/-- The observable outcome of `handleToken`. -/
inductive TokenResult where
  | methodNotAllowed
  | jsonError (err : GoStr) (status : Nat)
  | success (access_token : GoStr) (token_type : GoStr) (expires_in : Nat)
deriving Repr, DecidableEq

/-- `handleToken`: reject non-POST, check the grant type, take and
delete the code from the store under the lock, then check expiry,
client identity and PKCE, and on success mint a fresh token
(`uuid.New().String()`, passed as `freshToken`) with a 1-hour expiry. -/
def handleToken (r : TokenRequest) (freshToken : GoStr) (now : Nat)
    (cs : CodeStore) (ts : TokenStore) : TokenResult × CodeStore × TokenStore :=
  if r.method ≠ ascii "POST" then
    (.methodNotAllowed, cs, ts)
  else if r.grant_type ≠ ascii "authorization_code" then
    (.jsonError (ascii "unsupported_grant_type") 400, cs, ts)
  else
    let found := mapGet cs r.code
    let cs' := mapDel cs r.code
    match found with
    | none => (.jsonError (ascii "invalid_grant") 400, cs', ts)
    | some authCode =>
      if now > authCode.expiresAt then
        (.jsonError (ascii "code_expired") 400, cs', ts)
      else if authCode.clientID ≠ r.client_id then
        (.jsonError (ascii "invalid_client") 401, cs', ts)
      else if ¬ verifyPKCE authCode.codeChallenge r.code_verifier then
        (.jsonError (ascii "invalid_request") 400, cs', ts)
      else
        let tok : AccessToken := ⟨freshToken, r.client_id, now + 3600⟩
        (.success freshToken (ascii "Bearer") 3600, cs', mapSet ts freshToken tok)

/-! ## Protected resource endpoint (embedding of `handleUserInfo`,
main.go lines 186-212) -/

/-- Go `strings.HasPrefix`. -/
def hasPrefix (pre s : GoStr) : Bool := pre.isPrefixOf s

/-- Go `strings.TrimPrefix`: drop the prefix when present, else return
the string unchanged. -/
def trimPrefix (pre s : GoStr) : GoStr :=
  if hasPrefix pre s then s.drop pre.length else s

/-- The fixed user-claims payload returned by `handleUserInfo`. -/
def userClaims : List (GoStr × GoStr) :=
  [(ascii "sub", ascii "user_123"), (ascii "name", ascii "Alice Doe"),
   (ascii "email", ascii "alice@example.com"), (ascii "role", ascii "admin"),
   (ascii "data", ascii "Private Photos from Snap Store")]

/-- The observable outcome of `handleUserInfo`. -/
inductive UserInfoResult where
  | unauthorized (msg : GoStr)
  | ok (claims : List (GoStr × GoStr))
deriving Repr, DecidableEq

/-- `handleUserInfo`: extract the bearer token from the `Authorization`
header, look it up non-destructively, and check expiry.  Returns the
result together with the (unchanged) token store. -/
def handleUserInfo (authHeader : GoStr) (now : Nat)
    (ts : TokenStore) : UserInfoResult × TokenStore :=
  if ¬ hasPrefix (ascii "Bearer ") authHeader then
    (.unauthorized (ascii "Unauthorized"), ts)
  else
    let token := trimPrefix (ascii "Bearer ") authHeader
    match mapGet ts token with
    | none => (.unauthorized (ascii "Invalid or expired token"), ts)
    | some accessToken =>
      if now > accessToken.expiresAt then
        (.unauthorized (ascii "Invalid or expired token"), ts)
      else
        (.ok userClaims, ts)

/-! ## Whole-server state and reachability

The two stores are the only mutable state; the mutex serializes every
handler's critical section, so every reachable state of the running
server is produced by some finite sequence of handler executions from
the empty initial stores. -/

/-- The process-wide mutable state: the two stores. -/
structure ServerState where
  codeStore : CodeStore
  tokenStore : TokenStore
deriving Repr, DecidableEq

/-- The state at startup: both maps empty. -/
def initState : ServerState := ⟨[], []⟩

/-- The states reachable from startup by any sequence of handler
executions, with arbitrary requests, fresh values and clock readings. -/
inductive Reachable : ServerState → Prop where
  | init : Reachable initState
  | authorize {s : ServerState} (q : AuthRequest) (f : GoStr) (now : Nat) :
      Reachable s →
      Reachable ⟨(handleAuthorize q f now s.codeStore).2, s.tokenStore⟩
  | token {s : ServerState} (r : TokenRequest) (f : GoStr) (now : Nat) :
      Reachable s →
      Reachable ⟨(handleToken r f now s.codeStore s.tokenStore).2.1,
                 (handleToken r f now s.codeStore s.tokenStore).2.2⟩
  | userinfo {s : ServerState} (h : GoStr) (now : Nat) :
      Reachable s →
      Reachable ⟨s.codeStore, (handleUserInfo h now s.tokenStore).2⟩

/-! ## Racing token exchanges

The `mu.Lock()`/`mu.Unlock()` pair around the code lookup-and-delete
makes it atomic, so any concurrent execution of `N` exchange requests
observes the store in some serial order of their critical sections; a
race is therefore modelled as running the attempts sequentially in an
arbitrary order. -/

/-- One exchange attempt: a request together with its fresh token value
and the clock reading of its execution. -/
structure Attempt where
  req : TokenRequest
  fresh : GoStr
  now : Nat
deriving Repr, DecidableEq

/-- Run a list of exchange attempts in order, threading the stores, and
collect every attempt's result. -/
def runExchanges : List Attempt → CodeStore → TokenStore →
    List TokenResult × CodeStore × TokenStore
  | [], cs, ts => ([], cs, ts)
  | a :: rest, cs, ts =>
      let step := handleToken a.req a.fresh a.now cs ts
      let more := runExchanges rest step.2.1 step.2.2
      (step.1 :: more.1, more.2)

/-! ## Concrete demo scenario

The exact flow printed by the repository's startup banner and callback
page: authorize with the demo challenge, then exchange with the demo
verifier.  Used to instantiate the general theorems below on concrete
inputs. -/

/-- The authorization request of the startup banner. -/
def demoAuthRequest : AuthRequest :=
  ⟨ClientID, RedirectURI, ascii "code",
   ascii "LQZxoESZIZMv7j_6u2jBWnivm0jsDelp3OLcKeo64S4", ascii "S256", ascii "xyz123"⟩

/-- State after the demo authorization (fresh code `code-1`, time 0). -/
def demoState1 : ServerState :=
  ⟨(handleAuthorize demoAuthRequest (ascii "code-1") 0 initState.codeStore).2,
   initState.tokenStore⟩

/-- The token request of the callback page's curl command. -/
def demoTokenRequest : TokenRequest :=
  ⟨ascii "POST", ascii "authorization_code", ascii "code-1",
   ascii "secret-verifier-string", ClientID⟩

/-- State after the demo token exchange (fresh token `tok-1`, time 0). -/
def demoState2 : ServerState :=
  ⟨(handleToken demoTokenRequest (ascii "tok-1") 0 demoState1.codeStore demoState1.tokenStore).2.1,
   (handleToken demoTokenRequest (ascii "tok-1") 0 demoState1.codeStore demoState1.tokenStore).2.2⟩

/-- A sample stored code expiring at time 600, bound to the demo
challenge. -/
def sampleCode : AuthCode :=
  ⟨ascii "c1", ClientID, RedirectURI,
   ascii "LQZxoESZIZMv7j_6u2jBWnivm0jsDelp3OLcKeo64S4", ascii "S256", 600⟩

/-- A code store holding only `sampleCode`. -/
def sampleStore : CodeStore := [(ascii "c1", sampleCode)]

/-- An exchange request for `sampleCode` with a wrong verifier. -/
def sampleReq : TokenRequest :=
  ⟨ascii "POST", ascii "authorization_code", ascii "c1", ascii "x", ClientID⟩

/-- An exchange request for `sampleCode` with the matching demo
verifier. -/
def sampleGoodReq : TokenRequest :=
  ⟨ascii "POST", ascii "authorization_code", ascii "c1",
   ascii "secret-verifier-string", ClientID⟩

/-- An authorization request with an unregistered client id (fails
validation step 1). -/
def badClientReq : AuthRequest :=
  ⟨ascii "evil-client", RedirectURI, ascii "code",
   ascii "LQZxoESZIZMv7j_6u2jBWnivm0jsDelp3OLcKeo64S4", ascii "S256", ascii "xyz123"⟩

/-- An authorization request with an unregistered redirect URI (fails
validation step 2). -/
def badRedirectReq : AuthRequest :=
  ⟨ClientID, ascii "http://evil.example/cb", ascii "code",
   ascii "LQZxoESZIZMv7j_6u2jBWnivm0jsDelp3OLcKeo64S4", ascii "S256", ascii "xyz123"⟩

/-- An authorization request with an unsupported response type (fails
validation step 3). -/
def badResponseTypeReq : AuthRequest :=
  ⟨ClientID, RedirectURI, ascii "token",
   ascii "LQZxoESZIZMv7j_6u2jBWnivm0jsDelp3OLcKeo64S4", ascii "S256", ascii "xyz123"⟩

/-- An authorization request with an empty code challenge (fails
validation step 4). -/
def noPkceReq : AuthRequest :=
  ⟨ClientID, RedirectURI, ascii "code", [], ascii "S256", ascii "xyz123"⟩

/-! ## Basic lemmas about the map model -/

/-- The demo challenge/verifier pair hard-coded in the repository's
startup banner and callback page: a test vector anchoring the SHA-256
and base64url embeddings against the real implementations. -/
example :
    verifyPKCE (ascii "LQZxoESZIZMv7j_6u2jBWnivm0jsDelp3OLcKeo64S4")
      (ascii "secret-verifier-string") = true := by decide

theorem mapGet_mapDel {V : Type} (m : GoMap V) (k : GoStr) :
    mapGet (mapDel m k) k = none := by
  induction m with
  | nil => rfl
  | cons p rest ih =>
      obtain ⟨k0, v0⟩ := p
      by_cases h : k0 = k
      · simpa [mapDel, h] using ih
      · simp [mapDel, mapGet, h, ih]

theorem mapGet_mapSet {V : Type} (m : GoMap V) (k : GoStr) (v : V) :
    mapGet (mapSet m k v) k = some v := by
  simp [mapSet, mapGet]

theorem mem_mapDel {V : Type} {m : GoMap V} {k : GoStr} {p : GoStr × V}
    (hp : p ∈ mapDel m k) : p ∈ m := by
  induction m with
  | nil => simp [mapDel] at hp
  | cons q rest ih =>
      obtain ⟨k0, v0⟩ := q
      by_cases h : k0 = k
      · simp only [mapDel, if_pos h] at hp
        exact List.mem_cons_of_mem _ (ih hp)
      · simp only [mapDel, if_neg h, List.mem_cons] at hp
        rcases hp with rfl | hp
        · exact List.mem_cons_self _ _
        · exact List.mem_cons_of_mem _ (ih hp)

theorem mem_mapSet {V : Type} {m : GoMap V} {k : GoStr} {v : V} {p : GoStr × V}
    (hp : p ∈ mapSet m k v) : p = (k, v) ∨ p ∈ m := by
  rcases List.mem_cons.mp hp with rfl | hp
  · exact Or.inl rfl
  · exact Or.inr (mem_mapDel hp)

theorem mapGet_mem {V : Type} {m : GoMap V} {k : GoStr} {v : V}
    (h : mapGet m k = some v) : (k, v) ∈ m := by
  induction m with
  | nil => simp [mapGet] at h
  | cons p rest ih =>
      obtain ⟨k0, v0⟩ := p
      by_cases hk : k0 = k
      · simp only [mapGet, if_pos hk] at h
        subst hk
        obtain rfl : v0 = v := Option.some.inj h
        exact List.mem_cons_self _ _
      · simp only [mapGet, if_neg hk] at h
        exact List.mem_cons_of_mem _ (ih h)

/-! ## Shape lemmas about the handlers -/

theorem handleAuthorize_codeStore_cases (q : AuthRequest) (f : GoStr) (now : Nat)
    (cs : CodeStore) :
    (handleAuthorize q f now cs).2 = cs ∨
      (handleAuthorize q f now cs).2 =
        mapSet cs f ⟨f, ClientID, RedirectURI, q.code_challenge,
          q.code_challenge_method, now + 600⟩ := by
  simp only [handleAuthorize]
  split_ifs <;> simp

theorem handleToken_codeStore_cases (r : TokenRequest) (f : GoStr) (now : Nat)
    (cs : CodeStore) (ts : TokenStore) :
    (handleToken r f now cs ts).2.1 = cs ∨
      (handleToken r f now cs ts).2.1 = mapDel cs r.code := by
  simp only [handleToken]
  split_ifs <;> try simp
  cases mapGet cs r.code with
  | none => simp
  | some ac =>
      dsimp only
      split_ifs <;> simp

theorem handleToken_tokenStore_cases (r : TokenRequest) (f : GoStr) (now : Nat)
    (cs : CodeStore) (ts : TokenStore) :
    (handleToken r f now cs ts).2.2 = ts ∨
      ∃ ac, mapGet cs r.code = some ac ∧ ac.clientID = r.client_id ∧
        (handleToken r f now cs ts).2.2 =
          mapSet ts f ⟨f, r.client_id, now + 3600⟩ := by
  simp only [handleToken]
  split_ifs <;> try simp
  cases hfound : mapGet cs r.code with
  | none => simp
  | some ac =>
      dsimp only
      split_ifs with h1 h2 h3
      · simp
      · simp
      · exact Or.inr ⟨ac, rfl, h2, rfl⟩
      · simp

theorem handleUserInfo_tokenStore (h : GoStr) (now : Nat) (ts : TokenStore) :
    (handleUserInfo h now ts).2 = ts := by
  simp only [handleUserInfo]
  split
  · rfl
  · split
    · rfl
    · split <;> rfl

theorem handleToken_reaches_lookup (r : TokenRequest) (f : GoStr) (now : Nat)
    (cs : CodeStore) (ts : TokenStore)
    (hm : r.method = ascii "POST") (hg : r.grant_type = ascii "authorization_code") :
    (handleToken r f now cs ts).2.1 = mapDel cs r.code := by
  simp only [handleToken, hm, hg]
  simp only [ne_eq, not_true_eq_false, if_false]
  cases mapGet cs r.code with
  | none => rfl
  | some ac =>
      dsimp only
      split_ifs <;> rfl

theorem handleToken_absent (r : TokenRequest) (f : GoStr) (now : Nat)
    (cs : CodeStore) (ts : TokenStore)
    (hm : r.method = ascii "POST") (hg : r.grant_type = ascii "authorization_code")
    (hnone : mapGet cs r.code = none) :
    handleToken r f now cs ts =
      (.jsonError (ascii "invalid_grant") 400, mapDel cs r.code, ts) := by
  simp [handleToken, hm, hg, hnone]

theorem handleToken_present_not_invalid_grant (r : TokenRequest) (f : GoStr) (now : Nat)
    (cs : CodeStore) (ts : TokenStore) {ac : AuthCode}
    (hm : r.method = ascii "POST") (hg : r.grant_type = ascii "authorization_code")
    (hsome : mapGet cs r.code = some ac) :
    (handleToken r f now cs ts).1 ≠ .jsonError (ascii "invalid_grant") 400 := by
  simp only [handleToken, hm, hg]
  simp only [ne_eq, not_true_eq_false, if_false, hsome]
  split_ifs <;> simp <;> decide

theorem runExchanges_length (as_ : List Attempt) (cs : CodeStore) (ts : TokenStore) :
    (runExchanges as_ cs ts).1.length = as_.length := by
  induction as_ generalizing cs ts with
  | nil => rfl
  | cons a rest ih => simp [runExchanges, ih]

theorem runExchanges_absent (as_ : List Attempt) (c : GoStr) (cs : CodeStore)
    (ts : TokenStore) (hnone : mapGet cs c = none)
    (hall : ∀ a ∈ as_, a.req.method = ascii "POST" ∧
      a.req.grant_type = ascii "authorization_code" ∧ a.req.code = c) :
    (runExchanges as_ cs ts).1 =
      List.replicate as_.length (.jsonError (ascii "invalid_grant") 400) := by
  induction as_ generalizing cs ts with
  | nil => rfl
  | cons a rest ih =>
      obtain ⟨hm, hg, hc⟩ := hall a (List.mem_cons_self _ _)
      have hstep := handleToken_absent a.req a.fresh a.now cs ts hm hg (by rw [hc]; exact hnone)
      have hrest := ih (mapDel cs a.req.code) ts
        (by rw [hc]; exact hc ▸ mapGet_mapDel cs c)
        (fun x hx => hall x (List.mem_cons_of_mem _ hx))
      simp [runExchanges, hstep, hrest, List.replicate]

/-! ## The claims -/

/-- C1: for every pair of byte strings, `verifyPKCE(challenge, verifier)`
returns true if and only if the URL-safe base64 encoding without padding
of the SHA-256 digest of the bytes of `verifier` equals `challenge`
byte-for-byte.  (The embedding is a pure function, so freedom from side
effects is inherent in the model.) -/
theorem verifyPKCE_correct (challenge verifier : GoStr) :
    verifyPKCE challenge verifier = true ↔
      base64urlNoPad (sha256 verifier) = challenge := by
  simp [verifyPKCE]

/-- C2: every exchange attempt that reaches the code lookup removes the
code entry from the store at the moment it is read, whether or not the
exchange then succeeds: afterwards the code is absent, a second attempt
with the same code (any verifier) fails with `invalid_grant`, and an
attempt on a code whose `expiresAt` has passed fails with `code_expired`
while the code is nonetheless removed. -/
theorem handleToken_consumes_code (r r2 : TokenRequest) (f f2 : GoStr)
    (now now2 : Nat) (cs : CodeStore) (ts ts2 : TokenStore) (ac : AuthCode)
    (hm : r.method = ascii "POST") (hg : r.grant_type = ascii "authorization_code")
    (hm2 : r2.method = ascii "POST") (hg2 : r2.grant_type = ascii "authorization_code")
    (hc2 : r2.code = r.code) :
    mapGet (handleToken r f now cs ts).2.1 r.code = none
    ∧ (handleToken r2 f2 now2 (handleToken r f now cs ts).2.1 ts2).1 =
        .jsonError (ascii "invalid_grant") 400
    ∧ (mapGet cs r.code = some ac → now > ac.expiresAt →
        (handleToken r f now cs ts).1 = .jsonError (ascii "code_expired") 400) := by
  have h1 : mapGet (handleToken r f now cs ts).2.1 r.code = none := by
    rw [handleToken_reaches_lookup r f now cs ts hm hg]
    exact mapGet_mapDel cs r.code
  refine ⟨h1, ?_, ?_⟩
  · rw [handleToken_absent r2 f2 now2 _ ts2 hm2 hg2 (by rw [hc2]; exact h1)]
  · intro hsome hexp
    simp [handleToken, hm, hg, hsome, hexp]

/-- C3: the token exchange validates in exactly this order, stopping at
the first failing step with that step's distinct error: grant type,
code presence (taking and removing the code), code expiry, client
identity, PKCE. -/
theorem handleToken_validation_order (r : TokenRequest) (f : GoStr) (now : Nat)
    (cs : CodeStore) (ts : TokenStore) (ac : AuthCode)
    (hm : r.method = ascii "POST") :
    (r.grant_type ≠ ascii "authorization_code" →
      handleToken r f now cs ts =
        (.jsonError (ascii "unsupported_grant_type") 400, cs, ts))
    ∧ (r.grant_type = ascii "authorization_code" → mapGet cs r.code = none →
      handleToken r f now cs ts =
        (.jsonError (ascii "invalid_grant") 400, mapDel cs r.code, ts))
    ∧ (r.grant_type = ascii "authorization_code" → mapGet cs r.code = some ac →
      now > ac.expiresAt →
      handleToken r f now cs ts =
        (.jsonError (ascii "code_expired") 400, mapDel cs r.code, ts))
    ∧ (r.grant_type = ascii "authorization_code" → mapGet cs r.code = some ac →
      ¬ now > ac.expiresAt → ac.clientID ≠ r.client_id →
      handleToken r f now cs ts =
        (.jsonError (ascii "invalid_client") 401, mapDel cs r.code, ts))
    ∧ (r.grant_type = ascii "authorization_code" → mapGet cs r.code = some ac →
      ¬ now > ac.expiresAt → ac.clientID = r.client_id →
      verifyPKCE ac.codeChallenge r.code_verifier = false →
      handleToken r f now cs ts =
        (.jsonError (ascii "invalid_request") 400, mapDel cs r.code, ts)) := by
  refine ⟨?_, ?_, ?_, ?_, ?_⟩
  · intro hg
    simp [handleToken, hm, hg]
  · intro hg hnone
    simp [handleToken, hm, hg, hnone]
  · intro hg hsome hexp
    simp [handleToken, hm, hg, hsome, hexp]
  · intro hg hsome hexp hcl
    simp [handleToken, hm, hg, hsome, hexp, hcl]
  · intro hg hsome hexp hcl hpk
    simp [handleToken, hm, hg, hsome, hexp, hcl, hpk]

/-- C4: a token request passing all five validation steps stores an
`AccessToken` with the fresh token value, the request's `client_id`,
and expiry exactly one hour after issuance, and answers with
`{access_token, token_type: Bearer, expires_in: 3600}`. -/
theorem handleToken_success (r : TokenRequest) (f : GoStr) (now : Nat)
    (cs : CodeStore) (ts : TokenStore) (ac : AuthCode)
    (hm : r.method = ascii "POST") (hg : r.grant_type = ascii "authorization_code")
    (hsome : mapGet cs r.code = some ac) (hexp : ¬ now > ac.expiresAt)
    (hcl : ac.clientID = r.client_id)
    (hpk : verifyPKCE ac.codeChallenge r.code_verifier = true) :
    handleToken r f now cs ts =
      (.success f (ascii "Bearer") 3600, mapDel cs r.code,
        mapSet ts f ⟨f, r.client_id, now + 3600⟩)
    ∧ mapGet (handleToken r f now cs ts).2.2 f =
        some ⟨f, r.client_id, now + 3600⟩ := by
  have heq : handleToken r f now cs ts =
      (.success f (ascii "Bearer") 3600, mapDel cs r.code,
        mapSet ts f ⟨f, r.client_id, now + 3600⟩) := by
    simp [handleToken, hm, hg, hsome, hexp, hcl, hpk]
  exact ⟨heq, by rw [heq]; exact mapGet_mapSet ts f _⟩

/-- C5: an authorization request passing all four validation steps
stores an `AuthCode` keyed by the fresh code value, bound to the
registered client id and redirect URI, the request's challenge, and
expiry exactly ten minutes after issuance, and redirects to
`redirectUri?code=<code>&state=<state>` with the state echoed verbatim. -/
theorem handleAuthorize_success (q : AuthRequest) (f : GoStr) (now : Nat)
    (cs : CodeStore)
    (h1 : q.client_id = ClientID) (h2 : q.redirect_uri = RedirectURI)
    (h3 : q.response_type = ascii "code") (h4 : q.code_challenge ≠ [])
    (h5 : q.code_challenge_method = ascii "S256") :
    handleAuthorize q f now cs =
      (.redirect (RedirectURI ++ ascii "?code=" ++ f ++ ascii "&state=" ++ q.state),
        mapSet cs f ⟨f, ClientID, RedirectURI, q.code_challenge,
          q.code_challenge_method, now + 600⟩)
    ∧ mapGet (handleAuthorize q f now cs).2 f =
        some ⟨f, ClientID, RedirectURI, q.code_challenge,
          q.code_challenge_method, now + 600⟩ := by
  have heq : handleAuthorize q f now cs =
      (.redirect (RedirectURI ++ ascii "?code=" ++ f ++ ascii "&state=" ++ q.state),
        mapSet cs f ⟨f, ClientID, RedirectURI, q.code_challenge,
          q.code_challenge_method, now + 600⟩) := by
    simp [handleAuthorize, h1, h2, h3, h4, h5]
  exact ⟨heq, by rw [heq]; exact mapGet_mapSet cs f _⟩

/-- C6: the authorization endpoint validates in exactly this order,
failing fast at the first violated step with that step's distinct error
and leaving the code store unchanged on any failure: client id,
redirect URI, response type, PKCE parameters. -/
theorem handleAuthorize_validation_order (q : AuthRequest) (f : GoStr) (now : Nat)
    (cs : CodeStore) :
    (q.client_id ≠ ClientID →
      handleAuthorize q f now cs = (.httpError (ascii "Invalid client_id") 400, cs))
    ∧ (q.client_id = ClientID → q.redirect_uri ≠ RedirectURI →
      handleAuthorize q f now cs = (.httpError (ascii "Invalid redirect_uri") 400, cs))
    ∧ (q.client_id = ClientID → q.redirect_uri = RedirectURI →
      q.response_type ≠ ascii "code" →
      handleAuthorize q f now cs =
        (.httpError (ascii "Unsupported response_type") 400, cs))
    ∧ (q.client_id = ClientID → q.redirect_uri = RedirectURI →
      q.response_type = ascii "code" →
      (q.code_challenge = [] ∨ q.code_challenge_method ≠ ascii "S256") →
      handleAuthorize q f now cs =
        (.httpError (ascii "PKCE required (code_challenge + S256)") 400, cs)) := by
  refine ⟨?_, ?_, ?_, ?_⟩
  · intro hc
    simp [handleAuthorize, hc]
  · intro hc hr
    simp [handleAuthorize, hc, hr]
  · intro hc hr hrt
    simp [handleAuthorize, hc, hr, hrt]
  · intro hc hr hrt hpkce
    rcases hpkce with hch | hcm
    · simp [handleAuthorize, hc, hr, hrt, hch]
    · simp [handleAuthorize, hc, hr, hrt, hcm]

/-- C9: a token request whose HTTP method is not POST is rejected with
"Method not allowed" before any validation, and both stores are left
unchanged. -/
theorem handleToken_rejects_non_post (r : TokenRequest) (f : GoStr) (now : Nat)
    (cs : CodeStore) (ts : TokenStore) (hm : r.method ≠ ascii "POST") :
    handleToken r f now cs ts = (.methodNotAllowed, cs, ts) := by
  simp [handleToken, hm]

/-- C7: the resource-access check succeeds with the user-claims payload
exactly when the `Authorization` header starts with `Bearer ` and the
extracted token is in the token store with its expiry not yet passed;
in every other case it answers unauthorized (either plain
`Unauthorized` or `Invalid or expired token`), and the token store is
never modified by the lookup. -/
theorem handleUserInfo_characterization (h : GoStr) (now : Nat) (ts : TokenStore) :
    ((handleUserInfo h now ts).1 = .ok userClaims ↔
      (hasPrefix (ascii "Bearer ") h = true ∧
        (mapGet ts (trimPrefix (ascii "Bearer ") h)).any
          (fun a => now ≤ a.expiresAt) = true))
    ∧ ((handleUserInfo h now ts).1 = .ok userClaims ∨
        (handleUserInfo h now ts).1 = .unauthorized (ascii "Unauthorized") ∨
        (handleUserInfo h now ts).1 = .unauthorized (ascii "Invalid or expired token"))
    ∧ (handleUserInfo h now ts).2 = ts := by
  refine ⟨?_, ?_, handleUserInfo_tokenStore h now ts⟩ <;>
  · by_cases hp : hasPrefix (ascii "Bearer ") h = true
    · cases hfound : mapGet ts (trimPrefix (ascii "Bearer ") h) with
      | none => simp [handleUserInfo, hp, hfound]
      | some a =>
          by_cases hexp : now > a.expiresAt <;>
            (simp [handleUserInfo, hp, hfound, hexp]; all_goals omega)
    · simp [handleUserInfo, hp]

/-- C8: when several exchange attempts race on the same code value that
is present in the store (the mutex serializes their atomic
lookup-and-delete, so a race is any serial order of the attempts),
exactly one attempt — the first — observes the entry, and every other
attempt observes it as absent and fails with `invalid_grant`. -/
theorem raced_exchanges_one_winner (as_ : List Attempt) (c : GoStr) (ac : AuthCode)
    (cs : CodeStore) (ts : TokenStore) (hne : as_ ≠ [])
    (hsome : mapGet cs c = some ac)
    (hall : ∀ a ∈ as_, a.req.method = ascii "POST" ∧
      a.req.grant_type = ascii "authorization_code" ∧ a.req.code = c) :
    (runExchanges as_ cs ts).1.length = as_.length
    ∧ (runExchanges as_ cs ts).1.head? ≠ some (.jsonError (ascii "invalid_grant") 400)
    ∧ (runExchanges as_ cs ts).1.tail =
        List.replicate (as_.length - 1) (.jsonError (ascii "invalid_grant") 400) := by
  cases as_ with
  | nil => exact absurd rfl hne
  | cons a rest =>
      obtain ⟨hm, hg, hc⟩ := hall a (List.mem_cons_self _ _)
      refine ⟨runExchanges_length _ _ _, ?_, ?_⟩
      · have hni := handleToken_present_not_invalid_grant a.req a.fresh a.now cs ts
          hm hg (by rw [hc]; exact hsome)
        simpa [runExchanges] using hni
      · have hcs : (handleToken a.req a.fresh a.now cs ts).2.1 = mapDel cs a.req.code :=
          handleToken_reaches_lookup _ _ _ _ _ hm hg
        have hnone : mapGet (handleToken a.req a.fresh a.now cs ts).2.1 c = none := by
          rw [hcs, hc]
          exact mapGet_mapDel cs c
        have hrest := runExchanges_absent rest c _
          (handleToken a.req a.fresh a.now cs ts).2.2 hnone
          (fun x hx => hall x (List.mem_cons_of_mem _ hx))
        simpa [runExchanges] using hrest

/-- Invariant behind C10: in every reachable state, every stored code
and every stored token is bound to the registered client identifier. -/
theorem reachable_client_inv (s : ServerState) (hs : Reachable s) :
    (∀ p ∈ s.codeStore, p.2.clientID = ClientID) ∧
      (∀ p ∈ s.tokenStore, p.2.clientID = ClientID) := by
  induction hs with
  | init =>
      exact ⟨fun p hp => absurd hp (List.not_mem_nil p),
             fun p hp => absurd hp (List.not_mem_nil p)⟩
  | @authorize s q f now hr ih =>
      refine ⟨fun p hp => ?_, ih.2⟩
      rcases handleAuthorize_codeStore_cases q f now s.codeStore with hcs | hcs
      · rw [hcs] at hp
        exact ih.1 p hp
      · rw [hcs] at hp
        rcases mem_mapSet hp with rfl | hmem
        · rfl
        · exact ih.1 p hmem
  | @token s r f now hr ih =>
      constructor
      · intro p hp
        rcases handleToken_codeStore_cases r f now s.codeStore s.tokenStore with hcs | hcs
        · rw [hcs] at hp
          exact ih.1 p hp
        · rw [hcs] at hp
          exact ih.1 p (mem_mapDel hp)
      · intro p hp
        rcases handleToken_tokenStore_cases r f now s.codeStore s.tokenStore with
          hts | ⟨ac, hfound, hcl, hts⟩
        · rw [hts] at hp
          exact ih.2 p hp
        · rw [hts] at hp
          rcases mem_mapSet hp with rfl | hmem
          · have hac : ac.clientID = ClientID := ih.1 (r.code, ac) (mapGet_mem hfound)
            show r.client_id = ClientID
            rw [← hcl]
            exact hac
          · exact ih.2 p hmem
  | userinfo h now _ ih =>
      refine ⟨ih.1, ?_⟩
      rw [handleUserInfo_tokenStore]
      exact ih.2

/-- C10: every access token ever present in the token store of a
reachable server state is bound to the single registered client
identifier `demo-client`. -/
theorem tokenStore_client_invariant (s : ServerState) (hs : Reachable s)
    (p : GoStr × AccessToken) (hp : p ∈ s.tokenStore) :
    p.2.clientID = ascii "demo-client" :=
  (reachable_client_inv s hs).2 p hp

/-! ## Witnesses: the theorems instantiated on concrete inputs -/

/-- C1 witness: the demo pair. -/
theorem verifyPKCE_correct_witness :
    verifyPKCE (ascii "LQZxoESZIZMv7j_6u2jBWnivm0jsDelp3OLcKeo64S4")
        (ascii "secret-verifier-string") = true ↔
      base64urlNoPad (sha256 (ascii "secret-verifier-string")) =
        ascii "LQZxoESZIZMv7j_6u2jBWnivm0jsDelp3OLcKeo64S4" :=
  verifyPKCE_correct (ascii "LQZxoESZIZMv7j_6u2jBWnivm0jsDelp3OLcKeo64S4")
    (ascii "secret-verifier-string")

/-- C2 witness: an expired stored code, exchanged twice at time 1000. -/
theorem handleToken_consumes_code_witness :
    sampleReq.method = ascii "POST"
    ∧ sampleReq.grant_type = ascii "authorization_code"
    ∧ (mapGet (handleToken sampleReq (ascii "t1") 1000 sampleStore []).2.1
          sampleReq.code = none
       ∧ (handleToken sampleReq (ascii "t2") 1000
            (handleToken sampleReq (ascii "t1") 1000 sampleStore []).2.1 []).1 =
           .jsonError (ascii "invalid_grant") 400
       ∧ (mapGet sampleStore sampleReq.code = some sampleCode →
          1000 > sampleCode.expiresAt →
           (handleToken sampleReq (ascii "t1") 1000 sampleStore []).1 =
             .jsonError (ascii "code_expired") 400)) :=
  ⟨by decide, by decide,
   handleToken_consumes_code sampleReq sampleReq (ascii "t1") (ascii "t2") 1000 1000
     sampleStore [] [] sampleCode (by decide) (by decide) (by decide) (by decide) rfl⟩

/-- C3 witness: the validation order instantiated on the sample store
at time 1000. -/
theorem handleToken_validation_order_witness :
    sampleReq.method = ascii "POST"
    ∧ ((sampleReq.grant_type ≠ ascii "authorization_code" →
        handleToken sampleReq (ascii "t1") 1000 sampleStore [] =
          (.jsonError (ascii "unsupported_grant_type") 400, sampleStore, []))
      ∧ (sampleReq.grant_type = ascii "authorization_code" →
        mapGet sampleStore sampleReq.code = none →
        handleToken sampleReq (ascii "t1") 1000 sampleStore [] =
          (.jsonError (ascii "invalid_grant") 400, mapDel sampleStore sampleReq.code, []))
      ∧ (sampleReq.grant_type = ascii "authorization_code" →
        mapGet sampleStore sampleReq.code = some sampleCode →
        1000 > sampleCode.expiresAt →
        handleToken sampleReq (ascii "t1") 1000 sampleStore [] =
          (.jsonError (ascii "code_expired") 400, mapDel sampleStore sampleReq.code, []))
      ∧ (sampleReq.grant_type = ascii "authorization_code" →
        mapGet sampleStore sampleReq.code = some sampleCode →
        ¬ 1000 > sampleCode.expiresAt → sampleCode.clientID ≠ sampleReq.client_id →
        handleToken sampleReq (ascii "t1") 1000 sampleStore [] =
          (.jsonError (ascii "invalid_client") 401, mapDel sampleStore sampleReq.code, []))
      ∧ (sampleReq.grant_type = ascii "authorization_code" →
        mapGet sampleStore sampleReq.code = some sampleCode →
        ¬ 1000 > sampleCode.expiresAt → sampleCode.clientID = sampleReq.client_id →
        verifyPKCE sampleCode.codeChallenge sampleReq.code_verifier = false →
        handleToken sampleReq (ascii "t1") 1000 sampleStore [] =
          (.jsonError (ascii "invalid_request") 400,
            mapDel sampleStore sampleReq.code, []))) :=
  ⟨by decide,
   handleToken_validation_order sampleReq (ascii "t1") 1000 sampleStore [] sampleCode
     (by decide)⟩

/-- C4 witness: the demo exchange succeeding at time 0. -/
theorem handleToken_success_witness :
    sampleGoodReq.method = ascii "POST"
    ∧ sampleGoodReq.grant_type = ascii "authorization_code"
    ∧ mapGet sampleStore sampleGoodReq.code = some sampleCode
    ∧ ¬ 0 > sampleCode.expiresAt
    ∧ sampleCode.clientID = sampleGoodReq.client_id
    ∧ verifyPKCE sampleCode.codeChallenge sampleGoodReq.code_verifier = true
    ∧ (handleToken sampleGoodReq (ascii "t1") 0 sampleStore [] =
        (.success (ascii "t1") (ascii "Bearer") 3600, mapDel sampleStore sampleGoodReq.code,
          mapSet [] (ascii "t1") ⟨ascii "t1", sampleGoodReq.client_id, 0 + 3600⟩)
      ∧ mapGet (handleToken sampleGoodReq (ascii "t1") 0 sampleStore []).2.2 (ascii "t1") =
          some ⟨ascii "t1", sampleGoodReq.client_id, 0 + 3600⟩) :=
  ⟨by decide, by decide, by decide, by decide, by decide, by decide,
   handleToken_success sampleGoodReq (ascii "t1") 0 sampleStore [] sampleCode
     (by decide) (by decide) (by decide) (by decide) (by decide) (by decide)⟩

/-- C5 witness: the demo authorization request at time 0. -/
theorem handleAuthorize_success_witness :
    demoAuthRequest.client_id = ClientID
    ∧ demoAuthRequest.redirect_uri = RedirectURI
    ∧ demoAuthRequest.response_type = ascii "code"
    ∧ demoAuthRequest.code_challenge ≠ []
    ∧ demoAuthRequest.code_challenge_method = ascii "S256"
    ∧ (handleAuthorize demoAuthRequest (ascii "code-1") 0 [] =
        (.redirect (RedirectURI ++ ascii "?code=" ++ ascii "code-1" ++ ascii "&state=" ++
            demoAuthRequest.state),
          mapSet [] (ascii "code-1") ⟨ascii "code-1", ClientID, RedirectURI,
            demoAuthRequest.code_challenge, demoAuthRequest.code_challenge_method, 0 + 600⟩)
      ∧ mapGet (handleAuthorize demoAuthRequest (ascii "code-1") 0 []).2 (ascii "code-1") =
          some ⟨ascii "code-1", ClientID, RedirectURI,
            demoAuthRequest.code_challenge, demoAuthRequest.code_challenge_method, 0 + 600⟩) :=
  ⟨by decide, by decide, by decide, by decide, by decide,
   handleAuthorize_success demoAuthRequest (ascii "code-1") 0 []
     (by decide) (by decide) (by decide) (by decide) (by decide)⟩

/-- C6 witness: each of the four validation steps exercised
non-vacuously, on four concrete requests each violating exactly that
step while passing the earlier ones. -/
theorem handleAuthorize_validation_order_witness :
    (badClientReq.client_id ≠ ClientID
      ∧ handleAuthorize badClientReq (ascii "code-1") 0 [] =
          (.httpError (ascii "Invalid client_id") 400, []))
    ∧ (badRedirectReq.client_id = ClientID
      ∧ badRedirectReq.redirect_uri ≠ RedirectURI
      ∧ handleAuthorize badRedirectReq (ascii "code-1") 0 [] =
          (.httpError (ascii "Invalid redirect_uri") 400, []))
    ∧ (badResponseTypeReq.client_id = ClientID
      ∧ badResponseTypeReq.redirect_uri = RedirectURI
      ∧ badResponseTypeReq.response_type ≠ ascii "code"
      ∧ handleAuthorize badResponseTypeReq (ascii "code-1") 0 [] =
          (.httpError (ascii "Unsupported response_type") 400, []))
    ∧ (noPkceReq.client_id = ClientID
      ∧ noPkceReq.redirect_uri = RedirectURI
      ∧ noPkceReq.response_type = ascii "code"
      ∧ (noPkceReq.code_challenge = [] ∨ noPkceReq.code_challenge_method ≠ ascii "S256")
      ∧ handleAuthorize noPkceReq (ascii "code-1") 0 [] =
          (.httpError (ascii "PKCE required (code_challenge + S256)") 400, [])) :=
  ⟨⟨by decide,
    (handleAuthorize_validation_order badClientReq (ascii "code-1") 0 []).1
      (by decide)⟩,
   ⟨by decide, by decide,
    (handleAuthorize_validation_order badRedirectReq (ascii "code-1") 0 []).2.1
      (by decide) (by decide)⟩,
   ⟨by decide, by decide, by decide,
    (handleAuthorize_validation_order badResponseTypeReq (ascii "code-1") 0 []).2.2.1
      (by decide) (by decide) (by decide)⟩,
   ⟨by decide, by decide, by decide, by decide,
    (handleAuthorize_validation_order noPkceReq (ascii "code-1") 0 []).2.2.2
      (by decide) (by decide) (by decide) (by decide)⟩⟩

/-- C7 witness: a valid bearer token at time 0. -/
theorem handleUserInfo_characterization_witness :
    ((handleUserInfo (ascii "Bearer t1") 0
        [(ascii "t1", (⟨ascii "t1", ClientID, 3600⟩ : AccessToken))]).1 = .ok userClaims ↔
      (hasPrefix (ascii "Bearer ") (ascii "Bearer t1") = true ∧
        (mapGet [(ascii "t1", (⟨ascii "t1", ClientID, 3600⟩ : AccessToken))]
            (trimPrefix (ascii "Bearer ") (ascii "Bearer t1"))).any
          (fun a => 0 ≤ a.expiresAt) = true))
    ∧ ((handleUserInfo (ascii "Bearer t1") 0
          [(ascii "t1", (⟨ascii "t1", ClientID, 3600⟩ : AccessToken))]).1 = .ok userClaims ∨
        (handleUserInfo (ascii "Bearer t1") 0
          [(ascii "t1", (⟨ascii "t1", ClientID, 3600⟩ : AccessToken))]).1 =
            .unauthorized (ascii "Unauthorized") ∨
        (handleUserInfo (ascii "Bearer t1") 0
          [(ascii "t1", (⟨ascii "t1", ClientID, 3600⟩ : AccessToken))]).1 =
            .unauthorized (ascii "Invalid or expired token"))
    ∧ (handleUserInfo (ascii "Bearer t1") 0
        [(ascii "t1", (⟨ascii "t1", ClientID, 3600⟩ : AccessToken))]).2 =
        [(ascii "t1", (⟨ascii "t1", ClientID, 3600⟩ : AccessToken))] :=
  handleUserInfo_characterization (ascii "Bearer t1") 0
    [(ascii "t1", (⟨ascii "t1", ClientID, 3600⟩ : AccessToken))]

/-- C8 witness: three attempts racing on the sample code. -/
theorem raced_exchanges_one_winner_witness :
    ([⟨sampleReq, ascii "t1", 1000⟩, ⟨sampleReq, ascii "t2", 1000⟩,
        ⟨sampleReq, ascii "t3", 1000⟩] : List Attempt) ≠ []
    ∧ mapGet sampleStore (ascii "c1") = some sampleCode
    ∧ (∀ a ∈ ([⟨sampleReq, ascii "t1", 1000⟩, ⟨sampleReq, ascii "t2", 1000⟩,
          ⟨sampleReq, ascii "t3", 1000⟩] : List Attempt),
        a.req.method = ascii "POST" ∧
        a.req.grant_type = ascii "authorization_code" ∧ a.req.code = ascii "c1")
    ∧ ((runExchanges [⟨sampleReq, ascii "t1", 1000⟩, ⟨sampleReq, ascii "t2", 1000⟩,
          ⟨sampleReq, ascii "t3", 1000⟩] sampleStore []).1.length =
        ([⟨sampleReq, ascii "t1", 1000⟩, ⟨sampleReq, ascii "t2", 1000⟩,
          ⟨sampleReq, ascii "t3", 1000⟩] : List Attempt).length
      ∧ (runExchanges [⟨sampleReq, ascii "t1", 1000⟩, ⟨sampleReq, ascii "t2", 1000⟩,
          ⟨sampleReq, ascii "t3", 1000⟩] sampleStore []).1.head? ≠
          some (.jsonError (ascii "invalid_grant") 400)
      ∧ (runExchanges [⟨sampleReq, ascii "t1", 1000⟩, ⟨sampleReq, ascii "t2", 1000⟩,
          ⟨sampleReq, ascii "t3", 1000⟩] sampleStore []).1.tail =
          List.replicate (([⟨sampleReq, ascii "t1", 1000⟩, ⟨sampleReq, ascii "t2", 1000⟩,
            ⟨sampleReq, ascii "t3", 1000⟩] : List Attempt).length - 1)
            (.jsonError (ascii "invalid_grant") 400)) :=
  ⟨by decide, by decide, by decide,
   raced_exchanges_one_winner
     [⟨sampleReq, ascii "t1", 1000⟩, ⟨sampleReq, ascii "t2", 1000⟩,
      ⟨sampleReq, ascii "t3", 1000⟩] (ascii "c1") sampleCode sampleStore []
     (by decide) (by decide) (by decide)⟩

/-- C9 witness: a GET request to the token endpoint. -/
theorem handleToken_rejects_non_post_witness :
    (⟨ascii "GET", ascii "authorization_code", ascii "c1", ascii "x", ClientID⟩ :
        TokenRequest).method ≠ ascii "POST"
    ∧ handleToken ⟨ascii "GET", ascii "authorization_code", ascii "c1", ascii "x", ClientID⟩
        (ascii "t1") 0 sampleStore [] = (.methodNotAllowed, sampleStore, []) :=
  ⟨by decide,
   handleToken_rejects_non_post
     ⟨ascii "GET", ascii "authorization_code", ascii "c1", ascii "x", ClientID⟩
     (ascii "t1") 0 sampleStore [] (by decide)⟩

/-- C10 witness: the state reached by the demo authorization followed by
the demo exchange holds the issued token, bound to `demo-client`. -/
theorem tokenStore_client_invariant_witness :
    Reachable demoState2
    ∧ (ascii "tok-1", (⟨ascii "tok-1", ClientID, 3600⟩ : AccessToken)) ∈
        demoState2.tokenStore
    ∧ ((ascii "tok-1", (⟨ascii "tok-1", ClientID, 3600⟩ : AccessToken)) :
        GoStr × AccessToken).2.clientID = ascii "demo-client" := by
  have h1 : Reachable demoState1 :=
    Reachable.authorize demoAuthRequest (ascii "code-1") 0 Reachable.init
  have h2 : Reachable demoState2 :=
    Reachable.token demoTokenRequest (ascii "tok-1") 0 h1
  have hmem : (ascii "tok-1", (⟨ascii "tok-1", ClientID, 3600⟩ : AccessToken)) ∈
      demoState2.tokenStore := by decide
  exact ⟨h2, hmem, tokenStore_client_invariant demoState2 h2 _ hmem⟩

end OAuth
